import Mathlib

/-!
# CogniQuery — formal verification of the RAG core

Shallow embedding of the retrieval-augmented pipeline of the CogniQuery
repository (src/logic.py, src/backend/logic.py, src/app.py, src/api/index.py)
and proofs settling the specification claims about it.

Python text is modelled as `List Char` (Python `len`/slicing act on code
points).  Python exceptions are modelled with `Except`/`Option`; the
`chunk_text` while-loop, whose termination depends on the configuration, is
modelled with explicit fuel.  External capabilities (the pdf/docx/txt
extractors, the embedding and generation services) are parameters, as the
spec prescribes; faiss and CPython builtin semantics used by the code are
modelled from their documented behaviour where the code relies on them.
-/

/-- Convenience: the `List Char` underlying a string literal. -/
def s2l (s : String) : List Char := s.data

/-! ## Python slicing and indexing -/

/-- Normalises one Python slice endpoint for a sequence of length `len`:
a negative index counts from the end (clamped below at 0), a non-negative
one is clamped above at `len`. -/
def pySliceIdx (len : Nat) (i : Int) : Nat :=
  if i < 0 then ((len : Int) + i).toNat else min i.toNat len

/-- Python `l[a:b]` (step 1) on a character list. -/
def pySlice (l : List Char) (a b : Int) : List Char :=
  let i := pySliceIdx l.length a
  let j := pySliceIdx l.length b
  (l.drop i).take (j - i)

/-- Python `l[i]`: a negative index counts from the end; an out-of-range
index raises `IndexError`, modelled as `none`. -/
def pyIndex {α : Type} (l : List α) (i : Int) : Option α :=
  let j : Int := if i < 0 then (l.length : Int) + i else i
  if 0 ≤ j then l.get? j.toNat else none

/-! ## Chunker — `chunk_text` (src/logic.py 28-42, src/backend/logic.py 64-70)

```python
def chunk_text(text, chunk_size=1000, chunk_overlap=200):
    if len(text) <= chunk_size:
        return [text]
    chunks = []
    start = 0
    while start < len(text):
        end = start + chunk_size
        chunks.append(text[start:end])
        start += chunk_size - chunk_overlap
    return chunks
```

The while-loop's termination depends on `chunk_size - chunk_overlap` being
positive, which the code never checks, so the loop is modelled with fuel:
`none` means the loop is still running after `fuel` iterations — a run of
the real code that has not terminated. `start` is a Python int, hence `Int`.
-/

/-- One modelled iteration budget of the `chunk_text` while-loop. -/
def chunkLoop (text : List Char) (csize coverlap : Nat) (start : Int)
    (fuel : Nat) : Option (List (List Char)) :=
  match fuel with
  | 0 => none
  | fuel' + 1 =>
    if start < (text.length : Int) then
      match chunkLoop text csize coverlap (start + ((csize : Int) - (coverlap : Int))) fuel' with
      | some rest => some (pySlice text start (start + (csize : Int)) :: rest)
      | none => none
    else
      some []

/-- `chunk_text(text, chunk_size, chunk_overlap)`, loop budgeted by `fuel`. -/
def chunk_text (text : List Char) (csize coverlap : Nat) (fuel : Nat) :
    Option (List (List Char)) :=
  if text.length ≤ csize then some [text]
  else chunkLoop text csize coverlap 0 fuel

example : chunk_text (s2l "hello") 1000 200 0 = some [s2l "hello"] := by decide

example : chunk_text (s2l "abcdef") 3 1 10 =
    some [s2l "abc", s2l "cde", s2l "ef"] := by decide

/-! ## Chunker lemmas -/

/-- A Python slice with natural endpoints is a drop-then-take. -/
theorem pySlice_natCast (l : List Char) (a b : Nat) :
    pySlice l (a : Int) (b : Int) = (l.drop a).take (b - a) := by
  have ha : ¬ ((a : Int) < 0) := by omega
  have hb : ¬ ((b : Int) < 0) := by omega
  simp only [pySlice, pySliceIdx, if_neg ha, if_neg hb, Int.toNat_natCast]
  by_cases h : a ≤ l.length
  · rw [min_eq_left h]
    apply List.take_eq_take.mpr
    simp only [List.length_drop]
    omega
  · have h1 : l.length ≤ a := le_of_not_le h
    rw [min_eq_right h1, List.drop_length, List.drop_eq_nil_of_le h1]
    simp

/-- The chunk `text[start : start + csize]` emitted by the loop. -/
theorem pySlice_chunk (text : List Char) (start csize : Nat) :
    pySlice text (start : Int) ((start : Int) + (csize : Int)) =
      (text.drop start).take csize := by
  have hc : (start : Int) + (csize : Int) = ((start + csize : Nat) : Int) := by push_cast; ring
  rw [hc, pySlice_natCast]
  congr 1
  omega

/-- Full characterisation of the `chunk_text` while-loop for a terminating
configuration (`overlap < size`): starting at offset `start < len(text)` with
enough fuel, it emits exactly `ceil((len - start) / step)` windows, the `i`-th
being `text[start + i*step : start + i*step + size]`. -/
theorem chunkLoop_spec (text : List Char) (csize coverlap : Nat) (h : coverlap < csize) :
    ∀ (n start fuel : Nat), start < text.length →
      n = (text.length - start + (csize - coverlap) - 1) / (csize - coverlap) →
      n + 1 ≤ fuel →
      chunkLoop text csize coverlap (start : Int) fuel =
        some ((List.range n).map fun i =>
          (text.drop (start + i * (csize - coverlap))).take csize) := by
  set s := csize - coverlap with hs_def
  have hs : 0 < s := by omega
  intro n
  induction n with
  | zero =>
    intro start fuel hstart hn _
    exfalso
    have h0 : text.length - start + s - 1 < s := by
      have := (Nat.div_eq_zero_iff hs).mp hn.symm
      exact this
    omega
  | succ m ih =>
    intro start fuel hstart hn hfuel
    cases fuel with
    | zero => omega
    | succ f =>
      have hcond : (start : Int) < (text.length : Int) := by exact_mod_cast hstart
      have hcast : (start : Int) + ((csize : Int) - (coverlap : Int)) =
          ((start + s : Nat) : Int) := by
        push_cast [hs_def]
        omega
      simp only [chunkLoop, if_pos hcond, hcast]
      by_cases hend : text.length ≤ start + s
      · have hm : m = 0 := by
          have key : text.length - start + s - 1 = (text.length - start - 1) + s := by omega
          rw [key, Nat.add_div_right _ hs] at hn
          have hz : (text.length - start - 1) / s = 0 := by
            apply (Nat.div_eq_zero_iff hs).mpr
            omega
          omega
        subst hm
        cases f with
        | zero => omega
        | succ f' =>
          have hcond2 : ¬ (((start + s : Nat) : Int) < (text.length : Int)) := by
            push_cast
            omega
          simp only [chunkLoop, if_neg hcond2]
          rw [pySlice_chunk]
          rw [show List.range 1 = [0] from rfl]
          simp
      · push_neg at hend
        have hm' : m = (text.length - (start + s) + s - 1) / s := by
          have key : text.length - start + s - 1 =
              (text.length - (start + s) + s - 1) + s := by omega
          rw [key, Nat.add_div_right _ hs] at hn
          omega
        rw [ih (start + s) f hend hm' (by omega)]
        simp only [Option.some.injEq]
        rw [List.range_succ_eq_map, List.map_cons, List.map_map, pySlice_chunk]
        refine congrArg₂ List.cons (by simp) ?_
        have hfn : (fun i => (text.drop (start + s + i * s)).take csize) =
            ((fun i => (text.drop (start + i * s)).take csize) ∘ Nat.succ) := by
          funext i
          have harith : start + s + i * s = start + Nat.succ i * s := by
            simp [Nat.succ_mul]
            ring
          simp [Function.comp, harith]
        rw [hfn]

/-- `chunk_text` for a terminating configuration (`overlap < size`): one chunk
for short text, otherwise exactly `ceil(len / (size - overlap))` sliding
windows; fuel `len(text) + 1` always suffices. -/
theorem chunk_text_spec (text : List Char) (csize coverlap fuel : Nat)
    (h : coverlap < csize) (hfuel : text.length + 1 ≤ fuel) :
    chunk_text text csize coverlap fuel =
      some (if text.length ≤ csize then [text]
        else (List.range ((text.length + (csize - coverlap) - 1) / (csize - coverlap))).map
          fun i => (text.drop (i * (csize - coverlap))).take csize) := by
  unfold chunk_text
  by_cases hL : text.length ≤ csize
  · simp [hL]
  · rw [if_neg hL, if_neg hL]
    push_neg at hL
    set s := csize - coverlap with hs_def
    have hs : 0 < s := by omega
    set n := (text.length + s - 1) / s with hn_def
    have hle : n ≤ text.length := by
      rw [hn_def]
      have h2 : text.length ≤ s * text.length := Nat.le_mul_of_pos_left _ hs
      have h1 : text.length + s - 1 ≤ s * text.length + (s - 1) := by omega
      calc (text.length + s - 1) / s ≤ (s * text.length + (s - 1)) / s :=
            Nat.div_le_div_right h1
        _ = text.length + (s - 1) / s := Nat.mul_add_div hs _ _
        _ = text.length := by
            have : (s - 1) / s = 0 := (Nat.div_eq_zero_iff hs).mpr (by omega)
            omega
    have hmain := chunkLoop_spec text csize coverlap h n 0 fuel (by omega)
      (by rw [hn_def]; simp) (by omega)
    rw [Nat.cast_zero] at hmain
    simp only [Nat.zero_add] at hmain
    exact hmain

/-- With `overlap ≥ size` the loop's step `size - overlap` is non-positive,
so `start` never increases and the loop never terminates: for every fuel the
modelled loop is still running (`none`). -/
theorem chunkLoop_no_progress (text : List Char) (csize coverlap : Nat)
    (hov : csize ≤ coverlap) (hlen : csize < text.length) :
    ∀ (fuel : Nat) (start : Int), start ≤ 0 →
      chunkLoop text csize coverlap start fuel = none := by
  intro fuel
  induction fuel with
  | zero => intro start _; rfl
  | succ f ih =>
    intro start hst
    have hcond : start < (text.length : Int) := by
      have : (0 : Int) < (text.length : Int) := by
        have : 0 < text.length := by omega
        exact_mod_cast this
      omega
    have hstep : start + ((csize : Int) - (coverlap : Int)) ≤ 0 := by
      have : (csize : Int) ≤ (coverlap : Int) := by exact_mod_cast hov
      omega
    simp only [chunkLoop, if_pos hcond, ih _ hstep]

/-- `chunk_text` with `overlap ≥ size` on a text longer than `size` never
returns, whatever the fuel. -/
theorem chunk_text_no_progress (text : List Char) (csize coverlap : Nat)
    (hov : csize ≤ coverlap) (hlen : csize < text.length) :
    ∀ fuel : Nat, chunk_text text csize coverlap fuel = none := by
  intro fuel
  unfold chunk_text
  rw [if_neg (by omega)]
  exact chunkLoop_no_progress text csize coverlap hov hlen fuel 0 le_rfl

example : chunk_text (s2l "ab") 1 1 500 = none :=
  chunk_text_no_progress _ 1 1 (by decide) (by decide) 500

example : Option.map List.length (chunk_text (List.replicate 2401 'a') 1000 200 2402)
    = some 4 := by
  rw [chunk_text_spec _ _ _ _ (by decide) (by rw [List.length_replicate])]
  rw [List.length_replicate, if_neg (by decide : ¬ (2401 ≤ 1000))]
  simp only [Option.map_some', List.length_map, List.length_range]


/-! ## VectorIndex — model of `faiss.IndexFlatL2` (used in src/logic.py 265-266,
src/app.py 35-36, src/api/index.py 18-19, src/backend/logic.py 184, 237-238)

The index stores the added vectors in insertion order; `search(q, k)` is
exact squared-L2 nearest-neighbour search returning exactly `k` labels in
ascending distance order (ties by lower ordinal, matching the flat index's
insertion-order scan).  When the index holds fewer than `k` vectors the
result is padded with `-1`, faiss's documented convention for missing
neighbours.  Vector coordinates are modelled as exact integers (float32
arithmetic is exact on small integers), so distances are exact. -/

/-- Squared Euclidean distance between two coordinate lists. -/
def sqDist (q v : List Int) : Int :=
  (List.zipWith (fun a b => (a - b) * (a - b)) q v).sum

/-- Insert one `(ordinal, distance)` entry into a list sorted by ascending
distance, ties broken by lower ordinal. -/
def insertScored (p : Nat × Int) : List (Nat × Int) → List (Nat × Int)
  | [] => [p]
  | q :: rest =>
    if p.2 < q.2 ∨ (p.2 = q.2 ∧ p.1 ≤ q.1) then p :: q :: rest
    else q :: insertScored p rest

/-- Sort `(ordinal, distance)` entries by ascending distance, ties by ordinal. -/
def sortScored : List (Nat × Int) → List (Nat × Int)
  | [] => []
  | p :: rest => insertScored p (sortScored rest)

/-- `index.search(np.array([q]), k)`: the `k` nearest labels, `-1`-padded when
the index holds fewer than `k` vectors. -/
def faissSearch (vecs : List (List Int)) (q : List Int) (k : Nat) : List Int :=
  let scored := (vecs.map (sqDist q)).enum
  let sorted := sortScored scored
  (sorted.take k).map (fun p => (p.1 : Int)) ++ List.replicate (k - vecs.length) (-1)

example : faissSearch [[0], [10], [4]] [3] 2 = [2, 0] := by decide
example : faissSearch [[0]] [0] 3 = [0, -1, -1] := by decide

/-! ## Retriever — the multi-query search loop
(src/logic.py 166-173, src/backend/logic.py 123-127)

```python
retrieved_indices = set()
for embedding in all_embeddings:
    distances, indices = index.search(np.array([embedding]), k)
    for i in indices[0]:
        retrieved_indices.add(i)
retrieved_chunks = [chunks[i] for i in retrieved_indices]
```

The Python `set` is a `Finset Int`.  CPython gives no guarantee about the
iteration order of a `set`; it is an artifact of the hash-table layout
(e.g. the set `\x7b8, 1\x7d` of small ints iterates as 8, 1).  The final list
comprehension is therefore modelled over an arbitrary admissible enumeration
of the set: any duplicate-free listing of exactly its elements. -/

/-- The deduplicated ordinal set gathered by the per-embedding searches. -/
def retrievalUnion (vecs : List (List Int)) (qs : List (List Int)) (k : Nat) :
    Finset Int :=
  qs.foldl (fun s q => (faissSearch vecs q k).foldl (fun s' i => insert i s') s) ∅

/-- An admissible iteration order of a Python set: some duplicate-free listing
of exactly its elements. -/
def admissibleEnum (s : Finset Int) (l : List Int) : Prop :=
  l.Nodup ∧ l.toFinset = s

/-- A Python list comprehension whose body may raise (`none` = the whole
comprehension raises at its first failing element). -/
def pyListComp {α β : Type} (f : α → Option β) : List α → Option (List β)
  | [] => some []
  | a :: l =>
    match f a with
    | some b => (pyListComp f l).map fun bs => b :: bs
    | none => none

theorem pyListComp_spec {α β : Type} (f : α → Option β) :
    ∀ (l : List α) (res : List β), pyListComp f l = some res →
      res.length = l.length ∧ ∀ i : Fin l.length, f (l.get i) = res.get? i.val := by
  intro l
  induction l with
  | nil =>
    intro res h
    simp only [pyListComp, Option.some.injEq] at h
    subst h
    exact ⟨rfl, fun i => absurd i.isLt (by simp)⟩
  | cons a l ih =>
    intro res h
    simp only [pyListComp] at h
    cases hfa : f a with
    | none => rw [hfa] at h; exact absurd h (by simp)
    | some b =>
      rw [hfa] at h
      cases hrec : pyListComp f l with
      | none => rw [hrec] at h; exact absurd h (by simp)
      | some bs =>
        rw [hrec] at h
        simp only [Option.map_some', Option.some.injEq] at h
        subst h
        obtain ⟨hlen, hget⟩ := ih bs hrec
        refine ⟨by simp [hlen], fun i => ?_⟩
        cases i using Fin.cases with
        | zero => simpa using hfa
        | succ j => simpa using hget j

/-! ## QueryExpander — `generate_hypothetical_questions`
(src/logic.py 122-144, src/backend/logic.py 108-116)

```python
try:
    response = model.generate_content(prompt)
    questions = [line.strip().split(". ", 1)[1]
                 for line in response.text.strip().split("\n") if ". " in line]
    return questions
except Exception as e:
    ...
    return []
```

The generative call is a capability parameter: `Except String (List Char)`
is its outcome (`error` = any raised service exception, carrying the
message). -/

/-- Python `str.strip()`: drop whitespace from both ends. -/
def pyStrip (l : List Char) : List Char :=
  ((l.dropWhile Char.isWhitespace).reverse.dropWhile Char.isWhitespace).reverse

/-- Python `str.split("\n")`. -/
def splitLines : List Char → List (List Char)
  | [] => [[]]
  | c :: rest =>
    if c = '\n' then [] :: splitLines rest
    else
      match splitLines rest with
      | l :: ls => (c :: l) :: ls
      | [] => [[c]]

/-- Split at the first occurrence of the separator `". "`; `none` when the
separator does not occur (so Python's `split(". ", 1)` has no element 1 and
indexing `[1]` raises `IndexError`). -/
def splitFirstDotSpace : List Char → Option (List Char × List Char)
  | '.' :: ' ' :: rest => some ([], rest)
  | c :: rest => (splitFirstDotSpace rest).map fun p => (c :: p.1, p.2)
  | [] => none

example : splitLines (s2l "a\nbc\n") = [s2l "a", s2l "bc", []] := by decide
example : splitFirstDotSpace (s2l "1. a. b") = some (s2l "1", s2l "a. b") := by decide
example : splitFirstDotSpace (s2l "Hi.") = none := by decide

/-- The list comprehension over the response's lines: a line participates iff
it contains `". "`; the kept value is the part of the *stripped* line after
its first `". "`, and a participating line whose stripped form has no `". "`
raises `IndexError` (`Except.error`), aborting the comprehension. -/
def questionsComp : List (List Char) → Except Unit (List (List Char))
  | [] => .ok []
  | line :: rest =>
    if (splitFirstDotSpace line).isSome then
      match splitFirstDotSpace (pyStrip line) with
      | some p => (questionsComp rest).map fun qs => p.2 :: qs
      | none => .error ()
    else questionsComp rest

/-- `generate_hypothetical_questions(query)` given the outcome of the
generative call: on any exception — from the call itself or from the
comprehension — returns `[]`. -/
def generate_hypothetical_questions (resp : Except String (List Char)) :
    List (List Char) :=
  match resp with
  | .error _ => []
  | .ok text =>
    match questionsComp (splitLines (pyStrip text)) with
    | .ok qs => qs
    | .error _ => []

/-- `all_queries = [query] + generated_questions`
(src/logic.py 155, src/backend/logic.py 119). -/
def all_queries (query : List Char) (resp : Except String (List Char)) :
    List (List Char) :=
  query :: generate_hypothetical_questions resp

example : generate_hypothetical_questions
    (.ok (s2l "1. What terms?\n2. Which period?\n3. Any exceptions?")) =
    [s2l "What terms?", s2l "Which period?", s2l "Any exceptions?"] := by decide

example : generate_hypothetical_questions (.ok (s2l "note. hello")) =
    [s2l "hello"] := by decide

example : generate_hypothetical_questions (.ok (s2l "1. A\nHi. \n2. B")) = [] := by decide

/-! ## Ingestor — text extraction and the two build paths

The three format extractors (PyMuPDF / pdfplumber, python-docx, plain read)
are external capabilities: a map `Kind → Except String (List Char)` giving,
for this one file, each extractor's outcome (`error` = raised exception with
its message). -/

/-- A supported document format. -/
inductive Kind
  | pdf
  | docx
  | txt
deriving DecidableEq

/-- Extension dispatch: `filename.lower().endswith('.pdf' / '.docx' / '.txt')`
(src/logic.py 81-87 and 230-242, src/backend/logic.py 85-88 and 147-152). -/
def recognized_kind (filename : List Char) : Option Kind :=
  let lowered := filename.map Char.toLower
  if (s2l ".pdf").isSuffixOf lowered then some Kind.pdf
  else if (s2l ".docx").isSuffixOf lowered then some Kind.docx
  else if (s2l ".txt").isSuffixOf lowered then some Kind.txt
  else none

/-- The backend single-file extractor order (src/backend/logic.py 145-154):
the recognized format alone, or the fixed fallback `pdf, docx, txt`. -/
def try_order (filename : List Char) : List Kind :=
  match recognized_kind filename with
  | some k => [k]
  | none => [Kind.pdf, Kind.docx, Kind.txt]

/-- Python-level errors raised by the ingestion paths. -/
inductive PyErr
  | unsupportedFileType
  | emptyChunks
  | extractionFailed (lastError : Option String)
  | propagated (e : String)
deriving DecidableEq

/-- The backend extractor loop (src/backend/logic.py 156-169):

```python
last_error = None
for kind in try_order:
    try:
        full_text = extract_<kind>(file_path)
        if full_text:
            break
    except Exception as inner_e:
        last_error = inner_e
        continue
```

State `(full_text, last_error)` threads exactly as in the source: an empty
result is kept in `full_text` but does not break; an exception leaves
`full_text` alone and records `last_error`. -/
def extract_loop (f : Kind → Except String (List Char)) :
    List Kind → Option (List Char) → Option String →
      Option (List Char) × Option String
  | [], ft, le => (ft, le)
  | k :: rest, ft, le =>
    match f k with
    | .ok t => if t = [] then extract_loop f rest (some t) le else (some t, le)
    | .error e => extract_loop f rest ft (some e)

/-- The extraction phase of `process_single_file_and_query_rag`
(src/backend/logic.py 143-171): run the extractor loop over `try_order`,
then `raise ValueError(f"Could not extract text from file. Last error:
\x7blast_error\x7d")` when no text or only blank text was obtained. -/
def process_single_file_and_query_rag_extract (filename : List Char)
    (f : Kind → Except String (List Char)) : Except PyErr (List Char) :=
  match extract_loop f (try_order filename) none none with
  | (ft, le) =>
    match ft with
    | none => .error (.extractionFailed le)
    | some t => if pyStrip t = [] then .error (.extractionFailed le) else .ok t

/-- `chunk_text` with its default arguments `chunk_size=1000,
chunk_overlap=200`; fuel `len(text)+1` suffices for this configuration
(`chunk_text_spec`), so the `getD` default is never taken. -/
def chunk_text_default (text : List Char) : List (List Char) :=
  (chunk_text text 1000 200 (text.length + 1)).getD []

/-- The chunking phase of `process_single_file_and_query`
(src/logic.py 226-248): dispatch on the recognized extension — an
unrecognized one raises `ValueError("Unsupported file type: ...")`, an
extractor exception propagates — then chunk, and raise
`ValueError("Could not extract any text chunks ...")` if no chunks
resulted. -/
def process_single_file_and_query_chunks (filename : List Char)
    (f : Kind → Except String (List Char)) : Except PyErr (List (List Char)) :=
  match recognized_kind filename with
  | none => .error .unsupportedFileType
  | some k =>
    match f k with
    | .error e => .error (.propagated e)
    | .ok text =>
      let chunks := chunk_text_default text
      if chunks = [] then .error .emptyChunks else .ok chunks

/-- The directory-corpus build `load_and_chunk_documents`
(src/logic.py 62-101, src/backend/logic.py 73-93): `none` models a missing
source directory (returns `[]` after printing), otherwise each listed file
comes with the outcome of the extractor its extension selects; unsupported
extensions and extraction errors are skipped, chunks are concatenated in
file order, and the (possibly empty) chunk list is returned — never an
exception. -/
def load_and_chunk_documents
    (dir : Option (List (List Char × Except String (List Char)))) :
    List (List Char) :=
  match dir with
  | none => []
  | some files =>
    files.foldl (fun acc file =>
      match recognized_kind file.1 with
      | none => acc
      | some _ =>
        match file.2 with
        | .error _ => acc
        | .ok text => acc ++ chunk_text_default text) []

example : process_single_file_and_query_chunks (s2l "a.txt") (fun _ => .ok []) =
    .ok [[]] := by rfl
example : load_and_chunk_documents (some [(s2l "x.bin", .ok (s2l "hi"))]) = [] := by decide
example : load_and_chunk_documents (some [(s2l "x.txt", .ok (s2l "hi"))]) =
    [s2l "hi"] := by decide

/-! ## KnowledgeBase persistence — loading the prebuilt pair
(src/app.py 31-42, src/api/index.py 11-24, src/backend/logic.py 233-239)

```python
embeddings = np.load(CACHE_EMBEDDINGS_PATH)
with open(CACHE_CHUNKS_PATH, ...) as f:
    chunks = json.load(f)
prebuilt_index = faiss.IndexFlatL2(embeddings.shape[1])
prebuilt_index.add(embeddings)
```

`none` for a file models `FileNotFoundError` (the except-branch sets the
index to `None`, disabling the endpoint).  The embeddings file is the row
list added to the flat index in order; no comparison of any kind is made
between the two files. -/

/-- A loaded knowledge base: the vectors held by the faiss index (insertion
order) paired with the parallel chunk list. -/
structure KnowledgeBase where
  index : List (List Int)
  chunks : List (List Char)
deriving DecidableEq

/-- The startup load of the persisted pair. -/
def prebuilt_load (embFile : Option (List (List Int)))
    (chunkFile : Option (List (List Char))) : Option KnowledgeBase :=
  match embFile, chunkFile with
  | some emb, some cs => some ⟨emb, cs⟩
  | _, _ => none

/-! ## Adjudicator — the final generation call

The generation capability is a parameter: `Except String String` is the
outcome of `model.generate_content(prompt)` / `response.text` (`error` = a
raised service exception, carrying its message). -/

/-- `json.dumps` string escaping for the characters our payload can carry. -/
def jsonEscape (s : String) : String :=
  String.join (s.data.map fun c =>
    if c = '"' then "\\\"" else if c = '\\' then "\\\\" else String.singleton c)

/-- A one-level JSON object with string values. -/
structure JsonObjStr where
  fields : List (String × String)
deriving DecidableEq

/-- Serialise a one-level JSON object (the whitespace `json.dumps(...,
indent=2)` would insert is omitted; it does not affect well-formedness). -/
def renderJsonObj (o : JsonObjStr) : String :=
  "\x7b" ++ String.intercalate ", "
    (o.fields.map fun f => "\"" ++ jsonEscape f.1 ++ "\": \"" ++ jsonEscape f.2 ++ "\"")
    ++ "\x7d"

/-- The error payload built by the backend's except-branch
(src/backend/logic.py 136). -/
def gemini_error_payload (e : String) : JsonObjStr :=
  ⟨[("error", "An error occurred calling the Gemini API: " ++ e)]⟩

/-- The final generation step of `process_query_with_gemini` in src/logic.py
(lines 208-210): `response = model.generate_content(prompt); return
response.text` — no `try`, so a service exception propagates to the caller. -/
def src_generation_step (gen : Except String String) : Except String String :=
  match gen with
  | .ok t => .ok t
  | .error e => .error e

/-- The final generation step of `process_query_with_gemini` in
src/backend/logic.py (lines 133-136): the call is wrapped in `try`, and the
except-branch returns `json.dumps(\x7b"error": ...\x7d)` instead of raising. -/
def backend_generation_step (gen : Except String String) : Except String String :=
  match gen with
  | .ok t => .ok t
  | .error e => .ok (renderJsonObj (gemini_error_payload e))

example : backend_generation_step (.error "boom") =
    .ok "\x7b\"error\": \"An error occurred calling the Gemini API: boom\"\x7d" := by rfl

/-! ## Claim theorems -/

/-- C1 counterexample: a 2401-character text with `size=1000, overlap=200`.
The code emits windows at starts 0, 800, 1600, 2400 — the start offsets
`i*(size-overlap)` below `len(text)` — so it returns 4 chunks, while the
claim's formula `ceil((len - overlap) / (size - overlap)) =
ceil(2201/800) = 3` predicts 3. -/
theorem C1_count_formula_counterexample :
    Option.map List.length (chunk_text (List.replicate 2401 'a') 1000 200 2402) = some 4 ∧
    (2401 - 200 + (1000 - 200) - 1) / (1000 - 200) = 3 := by
  constructor
  · rw [chunk_text_spec _ _ _ _ (by decide) (by rw [List.length_replicate])]
    rw [List.length_replicate, if_neg (by decide : ¬ (2401 ≤ 1000))]
    simp only [Option.map_some', List.length_map, List.length_range]
  · decide

/-- C1 (amended): for `overlap < size` and sufficient fuel, `chunk` returns
exactly the input text when `len(text) ≤ size`, and otherwise exactly
`ceil(len(text) / (size - overlap))` chunks — not
`ceil((len(text) - overlap) / (size - overlap))` — the `i`-th chunk being
`text[i*(size-overlap) : i*(size-overlap)+size]` with the final slices
clamped to the text end. -/
theorem C1_chunk_characterization (text : List Char) (csize coverlap fuel : Nat)
    (h : coverlap < csize) (hfuel : text.length + 1 ≤ fuel) :
    chunk_text text csize coverlap fuel =
      some (if text.length ≤ csize then [text]
        else (List.range ((text.length + (csize - coverlap) - 1) / (csize - coverlap))).map
          fun i => (text.drop (i * (csize - coverlap))).take csize) :=
  chunk_text_spec text csize coverlap fuel h hfuel

/-- Witness for C1 at the spec's scenario: a 2000-character document with
`size=1000, overlap=200` yields exactly the 3 chunks at offsets
`[0:1000]`, `[800:1800]`, `[1600:2000]`. -/
theorem C1_witness :
    chunk_text (List.replicate 2000 'a') 1000 200 2001 =
      some [((List.replicate 2000 'a').drop 0).take 1000,
            ((List.replicate 2000 'a').drop 800).take 1000,
            ((List.replicate 2000 'a').drop 1600).take 1000] := by
  rw [C1_chunk_characterization (List.replicate 2000 'a') 1000 200 2001
    (by decide) (by rw [List.length_replicate])]
  rw [List.length_replicate, if_neg (by decide : ¬ (2000 ≤ 1000))]
  rw [show (2000 + (1000 - 200) - 1) / (1000 - 200) = 3 from by decide]
  rw [show List.range 3 = [0, 1, 2] from by decide]
  norm_num

/-- C2: code bug — `chunk_text` never checks the configuration, so with
`overlap ≥ size` (here the failing input: text `"ab"`, `size=1, overlap=1`)
the loop's step `size - overlap` is non-positive and the while-loop never
terminates: the fuelled model returns `none` (still running) for every fuel,
instead of the claimed immediate configuration error. -/
theorem C2_overlap_config_never_terminates :
    ∀ fuel : Nat, chunk_text (s2l "ab") 1 1 fuel = none := fun fuel =>
  chunk_text_no_progress (s2l "ab") 1 1 (le_refl 1) (by decide) fuel

/-- C3: code bug — on an index holding a single vector, `search` with `k=3`
returns the labels `[0, -1, -1]` (faiss pads missing neighbours with `-1`
instead of returning only the stored ordinals), the retrieval loop of
`process_query_with_gemini` therefore collects the invalid ordinal `-1`
into its set, and Python's negative indexing maps `chunks[-1]` to the last
chunk — a chunk that was not retrieved by distance. -/
theorem C3_small_index_pads_with_minus_one :
    faissSearch [[0]] [0] 3 = [0, -1, -1] ∧
    retrievalUnion [[0]] [[0]] 3 = ({0, -1} : Finset Int) ∧
    pyIndex [s2l "the only chunk"] (-1) = some (s2l "the only chunk") := by
  refine ⟨by decide, by decide, by decide⟩

/-- C4 counterexample: in src/logic.py the final generation call of
`process_query_with_gemini` is not wrapped in `try`, so a generation-service
error (here a quota error) propagates to the caller instead of being turned
into a JSON payload; the backend variant, by contrast, degrades it to the
error object. -/
theorem C4_src_variant_raises_counterexample :
    src_generation_step (.error "ResourceExhausted: 429 quota exceeded") =
      .error "ResourceExhausted: 429 quota exceeded" ∧
    backend_generation_step (.error "ResourceExhausted: 429 quota exceeded") =
      .ok (renderJsonObj (gemini_error_payload "ResourceExhausted: 429 quota exceeded")) :=
  ⟨rfl, rfl⟩

/-- C4 (amended): only the backend variant (src/backend/logic.py 133-136)
never raises from the final generation call: every outcome yields `.ok`,
and a service error yields the serialisation of the one-field JSON error
object; in src/logic.py (lines 208-210) the exception propagates to the
HTTP layer instead. -/
theorem C4_backend_degrades_to_error_json :
    ∀ (t e : String),
      backend_generation_step (.ok t) = .ok t ∧
      backend_generation_step (.error e) = .ok (renderJsonObj (gemini_error_payload e)) ∧
      ∀ gen : Except String String, ∃ out, backend_generation_step gen = .ok out := by
  intro t e
  refine ⟨rfl, rfl, fun gen => ?_⟩
  cases gen with
  | ok t' => exact ⟨t', rfl⟩
  | error e' => exact ⟨renderJsonObj (gemini_error_payload e'), rfl⟩

/-- `chunk_text` with default arguments always yields at least one chunk —
even for empty text, which becomes the single chunk `""`. -/
theorem chunk_text_default_ne_nil (text : List Char) : chunk_text_default text ≠ [] := by
  unfold chunk_text_default
  rw [chunk_text_spec text 1000 200 (text.length + 1) (by omega) (le_refl _)]
  by_cases hL : text.length ≤ 1000
  · simp [hL]
  · rw [if_neg hL]
    simp only [Option.getD_some]
    intro hcontra
    rw [List.map_eq_nil_iff, List.range_eq_nil] at hcontra
    have hpos : 0 < (text.length + (1000 - 200) - 1) / (1000 - 200) := by
      apply Nat.div_pos ?_ (by norm_num)
      omega
    omega

/-- C5 counterexample: the directory-corpus build on a directory with no
eligible files returns the empty chunk list without raising anything — an
empty knowledge base handed back silently, where the claim requires a
distinct `EmptyCorpusError`; and an empty-text upload in the single-file
build proceeds with the single empty chunk `""` instead of failing. -/
theorem C5_silent_empty_counterexample :
    load_and_chunk_documents (some []) = [] ∧
    process_single_file_and_query_chunks (s2l "a.txt") (fun _ => .ok []) = .ok [[]] :=
  ⟨rfl, rfl⟩

/-- C5 (amended): the directory build never raises on an empty corpus — a
missing directory or an empty listing yields `[]` silently, callers must
check; the single-file build does raise a generic `ValueError` (not a
distinct `EmptyCorpusError` type) when zero chunks result, but after any
successful extraction `chunk_text` returns at least one (possibly empty)
chunk, so that branch is unreachable and extraction output — even empty —
is always chunked and accepted. -/
theorem C5_amended_no_empty_corpus_error
    (fn : List Char) (f : Kind → Except String (List Char)) (k : Kind) (text : List Char)
    (h1 : recognized_kind fn = some k) (h2 : f k = .ok text) :
    load_and_chunk_documents none = [] ∧
    load_and_chunk_documents (some []) = [] ∧
    chunk_text_default text ≠ [] ∧
    process_single_file_and_query_chunks fn f = .ok (chunk_text_default text) := by
  refine ⟨rfl, rfl, chunk_text_default_ne_nil text, ?_⟩
  simp only [process_single_file_and_query_chunks, h1, h2]
  simp [chunk_text_default_ne_nil text]

/-- Witness for C5: a recognized `.txt` upload whose extractor returns
`"hi"` is chunked to the single chunk `"hi"` and accepted. -/
theorem C5_witness :
    process_single_file_and_query_chunks (s2l "a.txt") (fun _ => .ok (s2l "hi")) =
      .ok [s2l "hi"] := by
  rw [(C5_amended_no_empty_corpus_error (s2l "a.txt") (fun _ => .ok (s2l "hi"))
    Kind.txt (s2l "hi") (by rfl) rfl).2.2.2]
  rfl

/-- A concrete extractor outcome map used by the C6 theorems: the pdf
extractor raises, the docx extractor yields empty text, the txt extractor
yields `"hello"`. -/
def fW : Kind → Except String (List Char) := fun k =>
  match k with
  | .pdf => .error "bad pdf"
  | .docx => .ok []
  | .txt => .ok (s2l "hello")

/-- A concrete extractor outcome map whose three extractors all raise. -/
def gW : Kind → Except String (List Char) := fun _ => .error "boom"

/-- C6 counterexample: for a file recognized as `.docx` whose docx
extraction yields empty text, the backend build fails at once with the
`ValueError` carrying `last_error = None` — it never falls back to the
other extractors — although the txt extractor would have yielded the
non-empty text `"hello"` that the claimed fallback order would reach. -/
theorem C6_no_fallback_for_recognized_counterexample :
    process_single_file_and_query_rag_extract (s2l "claim.docx") fW =
      .error (.extractionFailed none) ∧
    fW Kind.txt = .ok (s2l "hello") ∧ s2l "hello" ≠ [] :=
  ⟨rfl, rfl, by decide⟩

/-- C6 (amended): only an *unrecognized* extension triggers the fallback
order pdf, docx, txt, which runs until an extractor yields non-empty text
(exceptions recorded as `last_error`); a recognized extension uses exactly
its own extractor with no cross-format fallback — empty or blank text from
it is an immediate error; and when the loop exhausts without usable text
the build fails with the `ValueError` carrying the last underlying error. -/
theorem C6_amended_fallback_only_when_unrecognized
    (f g : Kind → Except String (List Char)) (e1 e2 e3 e4 : String) (t : List Char)
    (h1 : f Kind.pdf = .error e1) (h2 : f Kind.docx = .ok [])
    (h3 : f Kind.txt = .ok t) (ht : pyStrip t ≠ [])
    (hg1 : g Kind.pdf = .error e2) (hg2 : g Kind.docx = .error e3)
    (hg3 : g Kind.txt = .error e4) :
    process_single_file_and_query_rag_extract (s2l "mystery") f = .ok t ∧
    process_single_file_and_query_rag_extract (s2l "a.docx") f =
      .error (.extractionFailed none) ∧
    process_single_file_and_query_rag_extract (s2l "a.pdf") f =
      .error (.extractionFailed (some e1)) ∧
    process_single_file_and_query_rag_extract (s2l "mystery") g =
      .error (.extractionFailed (some e4)) := by
  have ht' : t ≠ [] := fun hnil => ht (by rw [hnil]; rfl)
  refine ⟨?_, ?_, ?_, ?_⟩
  · unfold process_single_file_and_query_rag_extract
    rw [show try_order (s2l "mystery") = [Kind.pdf, Kind.docx, Kind.txt] from rfl]
    simp [extract_loop, h1, h2, h3, ht', ht]
  · unfold process_single_file_and_query_rag_extract
    rw [show try_order (s2l "a.docx") = [Kind.docx] from rfl]
    simp [extract_loop, h2]
    rfl
  · unfold process_single_file_and_query_rag_extract
    rw [show try_order (s2l "a.pdf") = [Kind.pdf] from rfl]
    simp [extract_loop, h1]
  · unfold process_single_file_and_query_rag_extract
    rw [show try_order (s2l "mystery") = [Kind.pdf, Kind.docx, Kind.txt] from rfl]
    simp [extract_loop, hg1, hg2, hg3]

/-- Witness for C6 at the concrete extractor maps `fW` and `gW`. -/
theorem C6_witness :
    process_single_file_and_query_rag_extract (s2l "mystery") fW = .ok (s2l "hello") ∧
    process_single_file_and_query_rag_extract (s2l "a.docx") fW =
      .error (.extractionFailed none) ∧
    process_single_file_and_query_rag_extract (s2l "a.pdf") fW =
      .error (.extractionFailed (some "bad pdf")) ∧
    process_single_file_and_query_rag_extract (s2l "mystery") gW =
      .error (.extractionFailed (some "boom")) :=
  C6_amended_fallback_only_when_unrecognized fW gW "bad pdf" "boom" "boom" "boom"
    (s2l "hello") rfl rfl rfl (by decide) rfl rfl rfl

/-- A nine-vector index used by the C7 theorems: vector `i` is `[i]`. -/
def vecs9 : List (List Int) := [[0], [1], [2], [3], [4], [5], [6], [7], [8]]

/-- Its parallel nine-chunk sequence. -/
def chunks9 : List (List Char) :=
  [s2l "c0", s2l "c1", s2l "c2", s2l "c3", s2l "c4",
   s2l "c5", s2l "c6", s2l "c7", s2l "c8"]

/-- C7 counterexample: searching `vecs9` with the two embeddings `[8]` and
`[1]` at `k=1` collects the ordinal set `\x7b8, 1\x7d`.  The code then emits
`[chunks[i] for i in retrieved_indices]` in the Python set's iteration
order, which is not sorted: `[8, 1]` is an admissible enumeration of that
set (and is CPython's actual small-int table order for `\x7b8, 1\x7d`, since
8 hashes to slot 0 and 1 to slot 1), and the resulting chunk sequence
`[c8, c1]` is not in ascending-ordinal order. -/
theorem C7_set_order_counterexample :
    admissibleEnum (retrievalUnion vecs9 [[8], [1]] 1) [8, 1] ∧
    pyListComp (pyIndex chunks9) [8, 1] = some [s2l "c8", s2l "c1"] ∧
    ¬ List.Pairwise (fun a b => a ≤ b) [(8 : Int), 1] := by
  refine ⟨⟨by decide, by decide⟩, by decide, by decide⟩

/-- C7 (amended): the per-embedding search results are unioned into one set
deduplicated by ordinal (never by content), and the returned chunks are
exactly the chunks at those ordinals — but in the Python set's iteration
order, an admissible enumeration of the set, not necessarily ascending:
every enumeration is duplicate-free, has the set's cardinality, stays
inside the deduplicated ordinal set, and maps position-wise to the emitted
chunks. -/
theorem C7_amended_dedup_by_ordinal
    (vecs qs : List (List Int)) (k : Nat) (chunks : List (List Char))
    (enum : List Int) (res : List (List Char))
    (hadm : admissibleEnum (retrievalUnion vecs qs k) enum)
    (hres : pyListComp (pyIndex chunks) enum = some res) :
    enum.Nodup ∧ res.length = (retrievalUnion vecs qs k).card ∧
    ∀ i : Fin enum.length,
      enum.get i ∈ retrievalUnion vecs qs k ∧
      pyIndex chunks (enum.get i) = res.get? i.val := by
  obtain ⟨hnd, hts⟩ := hadm
  obtain ⟨hlen, hget⟩ := pyListComp_spec (pyIndex chunks) enum res hres
  refine ⟨hnd, ?_, fun i => ⟨?_, hget i⟩⟩
  · rw [hlen, ← hts, List.toFinset_card_of_nodup hnd]
  · rw [← hts]
    exact List.mem_toFinset.mpr (List.get_mem enum i.val i.isLt)

/-- Witness for C7 at the concrete nine-chunk knowledge base. -/
theorem C7_witness :
    ([(8 : Int), 1]).Nodup ∧
    ([s2l "c8", s2l "c1"]).length = (retrievalUnion vecs9 [[8], [1]] 1).card := by
  have h := C7_amended_dedup_by_ordinal vecs9 [[8], [1]] 1 chunks9 [8, 1]
    [s2l "c8", s2l "c1"] ⟨by decide, by decide⟩ (by decide)
  exact ⟨h.1, h.2.1⟩

/-- Modelled from the spec's words (for comparison only, not from the
source): a line matching the claimed numbered-list pattern `"<n>. <text>"` —
one or more digits, then a period, then a space. -/
def specNumberedLine (l : List Char) : Bool :=
  let ds := l.takeWhile Char.isDigit
  decide (ds ≠ []) && ((l.drop ds.length).take 2 == ['.', ' '])

/-- C8 counterexample: the line `"note. hello"` does not match the claimed
pattern `"<n>. <text>"` (it has no leading number), yet the expander accepts
it — its filter is merely `". " in line` — and contributes `"hello"`. -/
theorem C8_pattern_counterexample :
    generate_hypothetical_questions (.ok (s2l "note. hello")) = [s2l "hello"] ∧
    specNumberedLine (s2l "note. hello") = false :=
  ⟨by decide, by decide⟩

/-- The comprehension equals a filter-map as long as no kept line's `". "`
disappears under `strip()` (otherwise the `[1]` indexing raises). -/
theorem questionsComp_eq_filterMap :
    ∀ ls : List (List Char),
      (∀ l ∈ ls, (splitFirstDotSpace l).isSome → (splitFirstDotSpace (pyStrip l)).isSome) →
      questionsComp ls = .ok (ls.filterMap fun l =>
        if (splitFirstDotSpace l).isSome
        then (splitFirstDotSpace (pyStrip l)).map Prod.snd else none) := by
  intro ls
  induction ls with
  | nil => intro _; rfl
  | cons line rest ih =>
    intro hsafe
    by_cases hline : (splitFirstDotSpace line).isSome
    · have hstripped := hsafe line (by simp) hline
      obtain ⟨p, hp⟩ := Option.isSome_iff_exists.mp hstripped
      simp only [questionsComp, if_pos hline, hp, List.filterMap_cons]
      rw [ih fun l hl hs => hsafe l (by simp [hl]) hs]
      rfl
    · simp only [questionsComp, if_neg hline, List.filterMap_cons]
      rw [ih fun l hl hs => hsafe l (by simp [hl]) hs]

/-- C8 (amended): a line contributes a sub-question iff it contains the
substring `". "` anywhere — there is no check that the prefix is a number —
and the contributed question is the part of the *stripped* line after its
first `". "`; lines without `". "` are silently dropped.  (Stated under the
proviso that every kept line still contains `". "` after stripping;
otherwise the comprehension raises `IndexError` and the whole expansion
returns `[]`.) -/
theorem C8_amended_substring_filter (text : List Char)
    (hsafe : ∀ l ∈ splitLines (pyStrip text),
      (splitFirstDotSpace l).isSome → (splitFirstDotSpace (pyStrip l)).isSome) :
    generate_hypothetical_questions (.ok text) =
      (splitLines (pyStrip text)).filterMap fun l =>
        if (splitFirstDotSpace l).isSome
        then (splitFirstDotSpace (pyStrip l)).map Prod.snd else none := by
  have h := questionsComp_eq_filterMap (splitLines (pyStrip text)) hsafe
  simp only [generate_hypothetical_questions, h]

/-- Witness for C8: a three-line response with one numbered line, one line
without `". "`, and one non-numbered line containing `". "`. -/
theorem C8_witness :
    generate_hypothetical_questions
      (.ok (s2l "1. What is covered?\nno dots here\nBTW. thanks")) =
      [s2l "What is covered?", s2l "thanks"] := by
  rw [C8_amended_substring_filter (s2l "1. What is covered?\nno dots here\nBTW. thanks")
    (by decide)]
  decide

/-- C9: expansion failure never fails the pipeline — when the generative
call raises (any service error), `generate_hypothetical_questions` returns
`[]` and `all_queries` degrades to the original query alone; a malformed
response (here one whose comprehension raises `IndexError` on the line
`"Hi. "`) likewise yields `[]`. -/
theorem C9_expansion_failure_never_propagates :
    (∀ e : String, generate_hypothetical_questions (.error e) = []) ∧
    (∀ (q : List Char) (e : String), all_queries q (.error e) = [q]) ∧
    generate_hypothetical_questions (.ok (s2l "1. A\nHi. \n2. B")) = [] :=
  ⟨fun _ => rfl, fun _ _ => rfl, by decide⟩

/-- C10 counterexample: a persisted pair of 2 embeddings with a 1-chunk
list is accepted at load time as a working knowledge base — no length or
dimension comparison happens — and the mismatch only surfaces at query
time: a search can return ordinal 1, and `chunks[1]` then raises
`IndexError`. -/
theorem C10_mismatch_accepted_counterexample :
    prebuilt_load (some [[0], [1]]) (some [s2l "c0"]) =
      some ⟨[[0], [1]], [s2l "c0"]⟩ ∧
    ([[(0 : Int)], [1]]).length = 2 ∧ ([s2l "c0"]).length = 1 ∧
    faissSearch [[0], [1]] [1] 1 = [1] ∧
    pyIndex [s2l "c0"] 1 = none :=
  ⟨rfl, rfl, rfl, by decide, by decide⟩

/-- C10 (amended): the embeddings file and the chunk file are loaded
together, and a missing file (`FileNotFoundError`) disables the knowledge
base (`none`); but no length or dimension validation is performed — every
successfully-read pair is accepted verbatim, mismatched or not. -/
theorem C10_load_performs_no_validation :
    (∀ (emb : List (List Int)) (cs : List (List Char)),
      prebuilt_load (some emb) (some cs) = some ⟨emb, cs⟩) ∧
    (∀ cs, prebuilt_load none cs = none) ∧
    (∀ emb, prebuilt_load emb none = none) := by
  refine ⟨fun emb cs => rfl, fun cs => rfl, fun emb => ?_⟩
  cases emb <;> rfl
